import Mathlib

/-!
Shallow embedding of the taskflow-api repository: the `Task` model
(src/tasks/models.py), the `TaskSerializer` codec (src/tasks/serializers.py)
and the `TaskViewSet` endpoints (src/tasks/views.py).  The repository code is
declarative Django REST Framework configuration; the generic CRUD machinery
those declarations drive (model-serializer validation, viewset dispatch,
delete cascades, queryset ordering) lives in the framework, so it is modelled
here from the specification's contract (spec.md sections 3-4, 7), instantiated
with the exact declarations found in the source files.
-/

namespace Taskflow

/-- JSON-like values appearing in request bodies.  Dates and user ids are
modelled as abstract numeric codes. -/
inductive Json where
  | str (s : String)
  | num (n : Nat)
  | null
  deriving DecidableEq, Repr

/-- A request body: a finite map from field names to JSON values,
represented as an association list. -/
def Body := List (String × Json)

/-- Value of the key `k` in body `b`, if present. -/
def lookupKey (b : Body) (k : String) : Option Json :=
  match b with
  | [] => none
  | (k', v) :: rest => if k' = k then some v else lookupKey rest k

/-- Task.STATUS_CHOICES from src/tasks/models.py: TODO, IN_PROGRESS, DONE. -/
inductive Status where
  | TODO
  | IN_PROGRESS
  | DONE
  deriving DecidableEq, Repr

/-- The stored string token of a status (first component of each pair in
STATUS_CHOICES). -/
def Status.token : Status → String
  | .TODO => "TODO"
  | .IN_PROGRESS => "IN_PROGRESS"
  | .DONE => "DONE"

/-- Choice validation for the status field: a string is accepted exactly when
it is one of the STATUS_CHOICES tokens. -/
def parseStatus (s : String) : Option Status :=
  if s = "TODO" then some .TODO
  else if s = "IN_PROGRESS" then some .IN_PROGRESS
  else if s = "DONE" then some .DONE
  else none

/-- Task.PRIORITY_CHOICES from src/tasks/models.py: LOW, MEDIUM, HIGH. -/
inductive Priority where
  | LOW
  | MEDIUM
  | HIGH
  deriving DecidableEq, Repr

/-- The stored string token of a priority. -/
def Priority.token : Priority → String
  | .LOW => "LOW"
  | .MEDIUM => "MEDIUM"
  | .HIGH => "HIGH"

/-- Choice validation for the priority field: a string is accepted exactly
when it is one of the PRIORITY_CHOICES tokens. -/
def parsePriority (s : String) : Option Priority :=
  if s = "LOW" then some .LOW
  else if s = "MEDIUM" then some .MEDIUM
  else if s = "HIGH" then some .HIGH
  else none

/-- A persisted Task record, following the field declarations of the `Task`
model in src/tasks/models.py.  Users are referenced by numeric id;
timestamps and dates are abstract numeric instants. -/
structure Task where
  id : Nat
  title : String
  description : String
  status : Status
  priority : Priority
  assigned_to : Option Nat
  created_by : Nat
  created_at : Nat
  updated_at : Nat
  due_date : Option Nat
  deriving DecidableEq, Repr

/-- Task.__str__ from src/tasks/models.py, the f-string
"{self.title} ({self.status})". -/
def Task.str (t : Task) : String :=
  t.title ++ " (" ++ t.status.token ++ ")"

/-- TaskSerializer.Meta.fields from src/tasks/serializers.py. -/
def serializerFields : List String :=
  ["id", "title", "description", "status", "priority", "assigned_to",
   "created_by", "created_at", "updated_at", "due_date"]

/-- The read-only fields of TaskSerializer: Meta.read_only_fields
(created_by, created_at, updated_at), the two nested serializers declared
with read_only=True (created_by, assigned_to), and the auto primary key id.
Input values for these keys are ignored by the codec. -/
def readOnlyFields : List String :=
  ["id", "created_by", "created_at", "updated_at", "assigned_to"]

/-- Errors surfaced to the caller (spec.md section 7). -/
inductive ApiError where
  | unauthorized
  | validationError
  | notFound
  deriving DecidableEq, Repr

/-- Validated data produced by deserializing a creation body: exactly the
writable fields of TaskSerializer, with model defaults filled in. -/
structure CreateData where
  title : String
  description : String
  status : Status
  priority : Priority
  due_date : Option Nat
  deriving DecidableEq, Repr

/-- Validated data produced by deserializing a partial-update body: each
writable field is present only when its key occurred in the body. -/
structure PatchData where
  title : Option String
  description : Option String
  status : Option Status
  priority : Option Priority
  due_date : Option (Option Nat)
  deriving DecidableEq, Repr

/-- Validation of the title field (models.CharField(max_length=200),
required and non-blank): present, a string, non-empty, at most 200
characters. -/
def validateTitle (v : Json) : Except ApiError String :=
  match v with
  | .str s => if s = "" then .error .validationError
              else if s.length ≤ 200 then .ok s
              else .error .validationError
  | _ => .error .validationError

/-- Validation of the description field (models.TextField(blank=True)):
a string, possibly empty; null is not allowed. -/
def validateDescription (v : Json) : Except ApiError String :=
  match v with
  | .str s => .ok s
  | _ => .error .validationError

/-- Validation of the status field against STATUS_CHOICES. -/
def validateStatus (v : Json) : Except ApiError Status :=
  match v with
  | .str s => match parseStatus s with
              | some st => .ok st
              | none => .error .validationError
  | _ => .error .validationError

/-- Validation of the priority field against PRIORITY_CHOICES. -/
def validatePriority (v : Json) : Except ApiError Priority :=
  match v with
  | .str s => match parsePriority s with
              | some p => .ok p
              | none => .error .validationError
  | _ => .error .validationError

/-- Validation of the due_date field (models.DateField(null=True,
blank=True)): a date code or null. -/
def validateDueDate (v : Json) : Except ApiError (Option Nat) :=
  match v with
  | .num n => .ok (some n)
  | .null => .ok none
  | .str _ => .error .validationError

/-- Handling of one field of a creation body: the field's validator when the
key is present, the default (an error for required fields, the model default
otherwise) when it is absent. -/
def createField {α : Type} (o : Option Json) (f : Json → Except ApiError α)
    (dflt : Except ApiError α) : Except ApiError α :=
  match o with
  | some v => f v
  | none => dflt

/-- Handling of one field of a partial-update body: the field's validator
when the key is present, absence otherwise. -/
def patchField {α : Type} (o : Option Json) (f : Json → Except ApiError α) :
    Except ApiError (Option α) :=
  match o with
  | some v => Except.map some (f v)
  | none => .ok none

/-- Modelled from the spec: deserialization of a creation body by the
model-serializer machinery absent from src/ (spec.md section 4.2
"decode(input structure) -> validated partial record").  Only the writable
fields of TaskSerializer are read: title (required), description, status and
priority (model defaults "" / TODO / MEDIUM) and due_date; keys of the
read-only fields and unknown keys are ignored. -/
def decodeCreate (b : Body) : Except ApiError CreateData := do
  let title ← createField (lookupKey b "title") validateTitle
    (.error .validationError)
  let description ← createField (lookupKey b "description")
    validateDescription (.ok "")
  let status ← createField (lookupKey b "status") validateStatus (.ok .TODO)
  let priority ← createField (lookupKey b "priority") validatePriority
    (.ok .MEDIUM)
  let due_date ← createField (lookupKey b "due_date") validateDueDate
    (.ok none)
  .ok { title := title, description := description, status := status,
        priority := priority, due_date := due_date }

/-- Modelled from the spec: deserialization of a partial-update body
(spec.md section 4.1 "update(id, partial fields)").  Each writable field is
validated when its key is present and omitted otherwise; read-only and
unknown keys are ignored. -/
def decodePatch (b : Body) : Except ApiError PatchData := do
  let title ← patchField (lookupKey b "title") validateTitle
  let description ← patchField (lookupKey b "description") validateDescription
  let status ← patchField (lookupKey b "status") validateStatus
  let priority ← patchField (lookupKey b "priority") validatePriority
  let due_date ← patchField (lookupKey b "due_date") validateDueDate
  .ok { title := title, description := description, status := status,
        priority := priority, due_date := due_date }

/-- The durable record store (spec.md section 4.1): the persisted tasks and
the next system-assigned id. -/
structure Store where
  tasks : List Task
  nextId : Nat
  deriving DecidableEq, Repr

/-- Modelled from the spec: create(record) of the record store -- assigns
id, created_at, updated_at, persists, returns the record.  The creator is
forced by TaskViewSet.perform_create. -/
def Store.createTask (s : Store) (d : CreateData) (creator : Nat) (now : Nat) :
    Task × Store :=
  let tk : Task :=
    { id := s.nextId, title := d.title, description := d.description,
      status := d.status, priority := d.priority, assigned_to := none,
      created_by := creator, created_at := now, updated_at := now,
      due_date := d.due_date }
  (tk, { tasks := s.tasks ++ [tk], nextId := s.nextId + 1 })

/-- Modelled from the spec: get(id) of the record store -- the record with
the given id, if any. -/
def Store.getTask (s : Store) (i : Nat) : Option Task :=
  s.tasks.find? (fun tk => tk.id = i)

/-- Merging validated partial data into an existing record, refreshing
updated_at (models.DateTimeField(auto_now=True)); created_at, created_by,
assigned_to and id are untouched. -/
def applyPatch (tk : Task) (p : PatchData) (now : Nat) : Task :=
  { tk with
    title := p.title.getD tk.title,
    description := p.description.getD tk.description,
    status := p.status.getD tk.status,
    priority := p.priority.getD tk.priority,
    due_date := p.due_date.getD tk.due_date,
    updated_at := now }

/-- Modelled from the spec: update(id, partial fields) of the record store --
merges fields, refreshes updated_at, returns the updated record, or NotFound
when the id is absent. -/
def Store.updateTask (s : Store) (i : Nat) (p : PatchData) (now : Nat) :
    Except ApiError (Task × Store) :=
  match s.getTask i with
  | none => .error .notFound
  | some tk =>
    let tk' := applyPatch tk p now
    .ok (tk', { s with tasks := s.tasks.map (fun x => if x.id = i then tk' else x) })

/-- Modelled from the spec: delete(id) of the record store -- removes the
record, or NotFound when the id is absent. -/
def Store.deleteTask (s : Store) (i : Nat) : Except ApiError Store :=
  match s.getTask i with
  | none => .error .notFound
  | some _ => .ok { s with tasks := s.tasks.filter (fun tk => ¬ tk.id = i) }

/-- Clearing of an assignment reference, as on_delete=models.SET_NULL on
Task.assigned_to prescribes. -/
def clearAssigned (u : Nat) (tk : Task) : Task :=
  if tk.assigned_to = some u then { tk with assigned_to := none } else tk

/-- Modelled from the spec: the referential side effect of deleting a User
(spec.md section 4.1), driven by the on_delete declarations of
src/tasks/models.py -- first the cascade of created_by (models.CASCADE)
removes the tasks the user created, then SET_NULL clears remaining
assignments. -/
def Store.deleteUser (s : Store) (u : Nat) : Store :=
  { s with tasks :=
      (s.tasks.filter (fun tk => ¬ tk.created_by = u)).map (clearAssigned u) }

/-- List ordering relation from Task.Meta.ordering = ["-created_at"]:
descending by created_at. -/
def taskGe (a b : Task) : Prop := b.created_at ≤ a.created_at

instance : DecidableRel taskGe := fun a b => Nat.decLe b.created_at a.created_at

instance : IsTotal Task taskGe := ⟨fun a b => (Nat.le_total b.created_at a.created_at)⟩

instance : IsTrans Task taskGe :=
  ⟨fun _ _ _ h1 h2 => Nat.le_trans h2 h1⟩

/-- Modelled from the spec: list() of the record store, ordered per
Task.Meta.ordering -- the stored tasks, newest (largest created_at) first. -/
def Store.listTasks (s : Store) : List Task :=
  s.tasks.insertionSort taskGe

/-- The caller identity: `some u` for an authenticated user u, `none` for an
unauthenticated request (permissions.IsAuthenticated in src/tasks/views.py). -/
def Caller := Option Nat

/-- Modelled from the spec: the LIST operation of TaskViewSet (spec.md
section 4.3) -- requires an authenticated caller, else Unauthorized; returns
all tasks in the queryset order. -/
def listEndpoint (caller : Option Nat) (s : Store) :
    Except ApiError (List Task) × Store :=
  match caller with
  | none => (.error .unauthorized, s)
  | some _ => (.ok s.listTasks, s)

/-- Modelled from the spec: the CREATE operation of TaskViewSet (spec.md
section 4.3) -- requires an authenticated caller; decodes the body; forces
created_by to the caller identity (TaskViewSet.perform_create passes
created_by=self.request.user); persists. -/
def createEndpoint (caller : Option Nat) (s : Store) (b : Body) (now : Nat) :
    Except ApiError Task × Store :=
  match caller with
  | none => (.error .unauthorized, s)
  | some u =>
    match decodeCreate b with
    | .error e => (.error e, s)
    | .ok d =>
      let r := s.createTask d u now
      (.ok r.1, r.2)

/-- Modelled from the spec: the GET operation of TaskViewSet (spec.md
section 4.4) -- requires an authenticated caller; the record or NotFound.
The store is never modified. -/
def getEndpoint (caller : Option Nat) (s : Store) (i : Nat) :
    Except ApiError Task × Store :=
  match caller with
  | none => (.error .unauthorized, s)
  | some _ =>
    match s.getTask i with
    | none => (.error .notFound, s)
    | some tk => (.ok tk, s)

/-- Modelled from the spec: the UPDATE operation of TaskViewSet (spec.md
section 4.4) -- requires an authenticated caller; retrieves the record
(NotFound when absent), decodes the partial body, merges and persists. -/
def updateEndpoint (caller : Option Nat) (s : Store) (i : Nat) (b : Body)
    (now : Nat) : Except ApiError Task × Store :=
  match caller with
  | none => (.error .unauthorized, s)
  | some _ =>
    match s.getTask i with
    | none => (.error .notFound, s)
    | some _ =>
      match decodePatch b with
      | .error e => (.error e, s)
      | .ok p =>
        match s.updateTask i p now with
        | .error e => (.error e, s)
        | .ok r => (.ok r.1, r.2)

/-- Modelled from the spec: the DELETE operation of TaskViewSet (spec.md
section 4.4) -- requires an authenticated caller; removes the record or
NotFound. -/
def deleteEndpoint (caller : Option Nat) (s : Store) (i : Nat) :
    Except ApiError Unit × Store :=
  match caller with
  | none => (.error .unauthorized, s)
  | some _ =>
    match s.deleteTask i with
    | .error e => (.error e, s)
    | .ok s' => (.ok (), s')

/-- The request body that writes every writable field of TaskSerializer:
title, description, status, priority and due_date. -/
def writeBody (ttl dsc : String) (st : Status) (pr : Priority) (dd : Nat) :
    Body :=
  [("title", Json.str ttl), ("description", Json.str dsc),
   ("status", Json.str st.token), ("priority", Json.str pr.token),
   ("due_date", Json.num dd)]

/-! Concrete data used by the witnesses. -/

/-- A sample persisted task. -/
def sampleTask : Task :=
  { id := 1, title := "Write spec", description := "", status := .TODO,
    priority := .MEDIUM, assigned_to := some 7, created_by := 3,
    created_at := 10, updated_at := 10, due_date := none }

/-- A sample store holding `sampleTask`. -/
def sampleStore : Store := { tasks := [sampleTask], nextId := 2 }

/-- A creation body that tries to smuggle in a created_by value. -/
def c1Body : Body :=
  [("created_by", Json.num 99), ("title", Json.str "Report")]

/-- The task the CREATE endpoint persists for `c1Body` at time 20 for
caller 3. -/
def c1ResTask : Task :=
  { id := 2, title := "Report", description := "", status := .TODO,
    priority := .MEDIUM, assigned_to := none, created_by := 3,
    created_at := 20, updated_at := 20, due_date := none }

/-- The store after that creation. -/
def c1ResStore : Store := { tasks := [sampleTask, c1ResTask], nextId := 3 }

/-- A creation body whose status value lies outside STATUS_CHOICES. -/
def c3Body : Body := [("title", Json.str "X"), ("status", Json.str "BOGUS")]

/-- A task created by user 2: removed when user 2 is deleted. -/
def c4TaskA : Task :=
  { id := 1, title := "A", description := "", status := .TODO,
    priority := .LOW, assigned_to := none, created_by := 2,
    created_at := 1, updated_at := 1, due_date := none }

/-- A task created by user 1 but assigned to user 2: kept, assignment
cleared, when user 2 is deleted. -/
def c4TaskB : Task :=
  { id := 2, title := "B", description := "", status := .IN_PROGRESS,
    priority := .MEDIUM, assigned_to := some 2, created_by := 1,
    created_at := 2, updated_at := 2, due_date := none }

/-- A task unrelated to user 2: untouched when user 2 is deleted. -/
def c4TaskC : Task :=
  { id := 3, title := "C", description := "", status := .DONE,
    priority := .HIGH, assigned_to := some 1, created_by := 1,
    created_at := 3, updated_at := 3, due_date := some 9 }

/-- A store exercising all three cases of the user-delete cascade. -/
def c4Store : Store := { tasks := [c4TaskA, c4TaskB, c4TaskC], nextId := 4 }

/-- A partial-update body touching only the status field. -/
def c7Body : Body := [("status", Json.str "DONE")]

/-- The validated partial data for `c7Body`. -/
def c7Patch : PatchData :=
  { title := none, description := none, status := some .DONE,
    priority := none, due_date := none }

/-- A partial-update body carrying an empty title. -/
def c10Body : Body := [("title", Json.str "")]

/-! Helper lemmas shared by the claim theorems. -/

theorem except_bind_ok_eval {ε α β : Type} (a : α) (f : α → Except ε β) :
    (Except.ok a : Except ε α) >>= f = f a := rfl

theorem except_bind_error_eval {ε α β : Type} (e : ε) (f : α → Except ε β) :
    (Except.error e : Except ε α) >>= f = Except.error e := rfl

theorem except_bind_ok_inv {ε α β : Type} {x : Except ε α} {f : α → Except ε β}
    {d : β} (h : x >>= f = .ok d) : ∃ a, x = .ok a ∧ f a = .ok d := by
  cases x with
  | error e => exact Except.noConfusion h
  | ok a => exact ⟨a, rfl, h⟩

theorem except_map_ok_inv {ε α β : Type} {g : α → β} {x : Except ε α} {y : β}
    (h : Except.map g x = .ok y) : ∃ a, x = .ok a ∧ y = g a := by
  cases x with
  | error e => exact Except.noConfusion h
  | ok a =>
    refine ⟨a, rfl, ?_⟩
    have h' : Except.ok (ε := ε) (g a) = Except.ok y := h
    exact (Except.ok.injEq _ _ ▸ h').symm

theorem lookupKey_cons_ne (k k' : String) (v : Json) (b : Body)
    (h : ¬ k = k') : lookupKey ((k, v) :: b) k' = lookupKey b k' := by
  simp [lookupKey, h]

theorem parseStatus_token (st : Status) : parseStatus st.token = some st := by
  cases st <;> decide

theorem parsePriority_token (pr : Priority) : parsePriority pr.token = some pr := by
  cases pr <;> decide

theorem decodeCreate_cons_ne (k : String) (v : Json) (b : Body)
    (h1 : ¬ k = "title") (h2 : ¬ k = "description") (h3 : ¬ k = "status")
    (h4 : ¬ k = "priority") (h5 : ¬ k = "due_date") :
    decodeCreate ((k, v) :: b) = decodeCreate b := by
  unfold decodeCreate
  rw [lookupKey_cons_ne k "title" v b h1,
      lookupKey_cons_ne k "description" v b h2,
      lookupKey_cons_ne k "status" v b h3,
      lookupKey_cons_ne k "priority" v b h4,
      lookupKey_cons_ne k "due_date" v b h5]

theorem decodePatch_cons_ne (k : String) (v : Json) (b : Body)
    (h1 : ¬ k = "title") (h2 : ¬ k = "description") (h3 : ¬ k = "status")
    (h4 : ¬ k = "priority") (h5 : ¬ k = "due_date") :
    decodePatch ((k, v) :: b) = decodePatch b := by
  unfold decodePatch
  rw [lookupKey_cons_ne k "title" v b h1,
      lookupKey_cons_ne k "description" v b h2,
      lookupKey_cons_ne k "status" v b h3,
      lookupKey_cons_ne k "priority" v b h4,
      lookupKey_cons_ne k "due_date" v b h5]

theorem validateTitle_total (v : Json) :
    validateTitle v = .error .validationError ∨ ∃ s, validateTitle v = .ok s := by
  cases v with
  | str s =>
    simp only [validateTitle]
    by_cases h1 : s = ""
    · left; rw [if_pos h1]
    · by_cases h2 : s.length ≤ 200
      · right; exact ⟨s, by rw [if_neg h1, if_pos h2]⟩
      · left; rw [if_neg h1, if_neg h2]
  | num n => left; rfl
  | null => left; rfl

theorem validateDescription_total (v : Json) :
    validateDescription v = .error .validationError ∨
      ∃ s, validateDescription v = .ok s := by
  cases v with
  | str s => right; exact ⟨s, rfl⟩
  | num n => left; rfl
  | null => left; rfl

theorem validateStatus_total (v : Json) :
    validateStatus v = .error .validationError ∨
      ∃ st, validateStatus v = .ok st := by
  cases v with
  | str s =>
    cases hp : parseStatus s with
    | none => left; simp [validateStatus, hp]
    | some st => right; exact ⟨st, by simp [validateStatus, hp]⟩
  | num n => left; rfl
  | null => left; rfl

theorem validatePriority_total (v : Json) :
    validatePriority v = .error .validationError ∨
      ∃ pr, validatePriority v = .ok pr := by
  cases v with
  | str s =>
    cases hp : parsePriority s with
    | none => left; simp [validatePriority, hp]
    | some pr => right; exact ⟨pr, by simp [validatePriority, hp]⟩
  | num n => left; rfl
  | null => left; rfl

theorem validateDueDate_total (v : Json) :
    validateDueDate v = .error .validationError ∨
      ∃ d, validateDueDate v = .ok d := by
  cases v with
  | str s => left; rfl
  | num n => right; exact ⟨some n, rfl⟩
  | null => right; exact ⟨none, rfl⟩

theorem except_bind_total {α β : Type} (x : Except ApiError α)
    (f : α → Except ApiError β)
    (hx : x = .error .validationError ∨ ∃ a, x = .ok a)
    (hf : ∀ a, f a = .error .validationError ∨ ∃ d, f a = .ok d) :
    x >>= f = .error .validationError ∨ ∃ d, x >>= f = .ok d := by
  rcases hx with he | ⟨a, ha⟩
  · left; rw [he]; rfl
  · rw [ha, except_bind_ok_eval]; exact hf a

theorem createField_total {α : Type} (o : Option Json)
    (f : Json → Except ApiError α) (dflt : Except ApiError α)
    (hv : ∀ v, f v = .error .validationError ∨ ∃ a, f v = .ok a)
    (hd : dflt = .error .validationError ∨ ∃ a, dflt = .ok a) :
    createField o f dflt = .error .validationError ∨
      ∃ a, createField o f dflt = .ok a := by
  cases o with
  | none => exact hd
  | some v => exact hv v

theorem patchField_total {α : Type} (o : Option Json)
    (f : Json → Except ApiError α)
    (hv : ∀ v, f v = .error .validationError ∨ ∃ a, f v = .ok a) :
    patchField o f = .error .validationError ∨
      ∃ a, patchField o f = .ok a := by
  cases o with
  | none => right; exact ⟨none, rfl⟩
  | some v =>
    rcases hv v with he | ⟨a, ha⟩
    · left; simp [patchField, he, Except.map]
    · right; exact ⟨some a, by simp [patchField, ha, Except.map]⟩

theorem decodeCreate_total (b : Body) :
    decodeCreate b = .error .validationError ∨
      ∃ d, decodeCreate b = .ok d := by
  unfold decodeCreate
  refine except_bind_total _ _
    (createField_total _ _ _ validateTitle_total (Or.inl rfl)) (fun t => ?_)
  refine except_bind_total _ _
    (createField_total _ _ _ validateDescription_total (Or.inr ⟨"", rfl⟩))
    (fun de => ?_)
  refine except_bind_total _ _
    (createField_total _ _ _ validateStatus_total (Or.inr ⟨.TODO, rfl⟩))
    (fun st => ?_)
  refine except_bind_total _ _
    (createField_total _ _ _ validatePriority_total (Or.inr ⟨.MEDIUM, rfl⟩))
    (fun pr => ?_)
  refine except_bind_total _ _
    (createField_total _ _ _ validateDueDate_total (Or.inr ⟨none, rfl⟩))
    (fun dd => ?_)
  exact Or.inr ⟨_, rfl⟩

theorem decodePatch_total (b : Body) :
    decodePatch b = .error .validationError ∨
      ∃ p, decodePatch b = .ok p := by
  unfold decodePatch
  refine except_bind_total _ _
    (patchField_total _ _ validateTitle_total) (fun t => ?_)
  refine except_bind_total _ _
    (patchField_total _ _ validateDescription_total) (fun de => ?_)
  refine except_bind_total _ _
    (patchField_total _ _ validateStatus_total) (fun st => ?_)
  refine except_bind_total _ _
    (patchField_total _ _ validatePriority_total) (fun pr => ?_)
  refine except_bind_total _ _
    (patchField_total _ _ validateDueDate_total) (fun dd => ?_)
  exact Or.inr ⟨_, rfl⟩

theorem createField_ok_inv {α : Type} {o : Option Json}
    {f : Json → Except ApiError α} {dflt : Except ApiError α} {a : α}
    (h : createField o f dflt = .ok a) :
    (o = none ∧ dflt = .ok a) ∨ ∃ v, o = some v ∧ f v = .ok a := by
  cases o with
  | none => exact Or.inl ⟨rfl, h⟩
  | some v => exact Or.inr ⟨v, rfl, h⟩

theorem patchField_ok_inv {α : Type} {o : Option Json}
    {f : Json → Except ApiError α} {a : Option α}
    (h : patchField o f = .ok a) :
    (o = none ∧ a = none) ∨
      ∃ v w, o = some v ∧ f v = .ok w ∧ a = some w := by
  cases o with
  | none => exact Or.inl ⟨rfl, (Except.ok.inj h).symm⟩
  | some v =>
    right
    obtain ⟨w, hw, haw⟩ := except_map_ok_inv (h : Except.map some (f v) = .ok a)
    exact ⟨v, w, rfl, hw, haw⟩

theorem decodeCreate_ok_inv {b : Body} {d : CreateData}
    (h : decodeCreate b = .ok d) :
    (∃ v, lookupKey b "title" = some v ∧ validateTitle v = .ok d.title) ∧
    (lookupKey b "status" = none ∨
      ∃ v, lookupKey b "status" = some v ∧ validateStatus v = .ok d.status) ∧
    (lookupKey b "priority" = none ∨
      ∃ v, lookupKey b "priority" = some v ∧
        validatePriority v = .ok d.priority) := by
  unfold decodeCreate at h
  obtain ⟨t, ht, h⟩ := except_bind_ok_inv h
  obtain ⟨de, hde, h⟩ := except_bind_ok_inv h
  obtain ⟨st, hst, h⟩ := except_bind_ok_inv h
  obtain ⟨pr, hpr, h⟩ := except_bind_ok_inv h
  obtain ⟨dd, hdd, h⟩ := except_bind_ok_inv h
  have hd := Except.ok.inj h
  subst hd
  refine ⟨?_, ?_, ?_⟩
  · rcases createField_ok_inv ht with ⟨-, hdf⟩ | ⟨v, hv, hok⟩
    · exact absurd hdf (by simp)
    · exact ⟨v, hv, hok⟩
  · rcases createField_ok_inv hst with ⟨hn, -⟩ | ⟨v, hv, hok⟩
    · exact Or.inl hn
    · exact Or.inr ⟨v, hv, hok⟩
  · rcases createField_ok_inv hpr with ⟨hn, -⟩ | ⟨v, hv, hok⟩
    · exact Or.inl hn
    · exact Or.inr ⟨v, hv, hok⟩

theorem decodePatch_ok_inv {b : Body} {p : PatchData}
    (h : decodePatch b = .ok p) :
    (lookupKey b "title" = none ∧ p.title = none ∨
      ∃ v w, lookupKey b "title" = some v ∧ validateTitle v = .ok w ∧
        p.title = some w) ∧
    (lookupKey b "status" = none ∧ p.status = none ∨
      ∃ v w, lookupKey b "status" = some v ∧ validateStatus v = .ok w ∧
        p.status = some w) ∧
    (lookupKey b "priority" = none ∧ p.priority = none ∨
      ∃ v w, lookupKey b "priority" = some v ∧ validatePriority v = .ok w ∧
        p.priority = some w) := by
  unfold decodePatch at h
  obtain ⟨t, ht, h⟩ := except_bind_ok_inv h
  obtain ⟨de, hde, h⟩ := except_bind_ok_inv h
  obtain ⟨st, hst, h⟩ := except_bind_ok_inv h
  obtain ⟨pr, hpr, h⟩ := except_bind_ok_inv h
  obtain ⟨dd, hdd, h⟩ := except_bind_ok_inv h
  have hp := Except.ok.inj h
  subst hp
  exact ⟨patchField_ok_inv ht, patchField_ok_inv hst, patchField_ok_inv hpr⟩

theorem validateTitle_ok {v : Json} {s : String}
    (h : validateTitle v = .ok s) : ¬ s = "" := by
  cases v with
  | str s0 =>
    simp only [validateTitle] at h
    by_cases h1 : s0 = ""
    · rw [if_pos h1] at h; exact Except.noConfusion h
    · rw [if_neg h1] at h
      by_cases h2 : s0.length ≤ 200
      · rw [if_pos h2] at h
        have := Except.ok.inj h
        subst this
        exact h1
      · rw [if_neg h2] at h; exact Except.noConfusion h
  | num n => exact Except.noConfusion h
  | null => exact Except.noConfusion h

theorem validateStatus_str_bad {v : String} (hp : parseStatus v = none) :
    validateStatus (Json.str v) = .error .validationError := by
  simp [validateStatus, hp]

theorem validatePriority_str_bad {v : String} (hp : parsePriority v = none) :
    validatePriority (Json.str v) = .error .validationError := by
  simp [validatePriority, hp]

theorem getTask_mem {s : Store} {i : Nat} {tk : Task}
    (h : s.getTask i = some tk) : tk ∈ s.tasks :=
  List.mem_of_find?_eq_some h

theorem clearAssigned_created_by (u : Nat) (tk : Task) :
    (clearAssigned u tk).created_by = tk.created_by := by
  unfold clearAssigned; split <;> rfl

theorem clearAssigned_not_assigned (u : Nat) (tk : Task) :
    ¬ (clearAssigned u tk).assigned_to = some u := by
  unfold clearAssigned
  split
  · simp
  · next h => exact h

theorem clearAssigned_of_not (u : Nat) (tk : Task)
    (h : ¬ tk.assigned_to = some u) : clearAssigned u tk = tk := by
  unfold clearAssigned; rw [if_neg h]

theorem clearAssigned_of_some (u : Nat) (tk : Task)
    (h : tk.assigned_to = some u) :
    clearAssigned u tk = { tk with assigned_to := none } := by
  unfold clearAssigned; rw [if_pos h]

theorem deleteUser_mem_iff (u : Nat) (s : Store) (tk' : Task) :
    tk' ∈ (s.deleteUser u).tasks ↔
      ∃ tk, tk ∈ s.tasks ∧ ¬ tk.created_by = u ∧ tk' = clearAssigned u tk := by
  simp only [Store.deleteUser, List.mem_map, List.mem_filter,
    decide_eq_true_eq]
  constructor
  · rintro ⟨tk, ⟨htk, hcb⟩, heq⟩
    exact ⟨tk, htk, hcb, heq.symm⟩
  · rintro ⟨tk, htk, hcb, heq⟩
    exact ⟨tk, ⟨htk, hcb⟩, heq.symm⟩

theorem updateEndpoint_eq (u i now : Nat) (s : Store) (b : Body) (tk : Task)
    (hget : s.getTask i = some tk) (p : PatchData)
    (hdec : decodePatch b = .ok p) :
    updateEndpoint (some u) s i b now =
      (.ok (applyPatch tk p now),
       { s with tasks :=
          s.tasks.map (fun x => if x.id = i then applyPatch tk p now else x) }) := by
  simp only [updateEndpoint, hget, hdec, Store.updateTask]

theorem updateEndpoint_ok_inv (u i now : Nat) (s : Store) (b : Body)
    (tk' : Task) (s' : Store)
    (h : updateEndpoint (some u) s i b now = (.ok tk', s')) :
    ∃ tk p, s.getTask i = some tk ∧ decodePatch b = .ok p ∧
      tk' = applyPatch tk p now := by
  simp only [updateEndpoint] at h
  cases hget : s.getTask i with
  | none => rw [hget] at h; simp at h
  | some tk =>
    rw [hget] at h
    cases hdec : decodePatch b with
    | error e => rw [hdec] at h; simp at h
    | ok p =>
      rw [hdec] at h
      simp only [Store.updateTask, hget, Prod.ext_iff] at h
      refine ⟨tk, p, rfl, rfl, ?_⟩
      have h1 := h.1
      simp only [Except.ok.injEq] at h1
      exact h1.symm

theorem decodePatch_writeBody (ttl dsc : String) (st : Status) (pr : Priority)
    (dd : Nat) (hne : ¬ ttl = "") (hlen : ttl.length ≤ 200) :
    decodePatch (writeBody ttl dsc st pr dd) =
      .ok { title := some ttl, description := some dsc, status := some st,
            priority := some pr, due_date := some (some dd) } := by
  unfold decodePatch writeBody
  simp [lookupKey, patchField, validateTitle, validateDescription,
    validateStatus, validatePriority, validateDueDate, hne, hlen,
    parseStatus_token, parsePriority_token, Except.map, except_bind_ok_eval]

/-! The claim theorems. -/

/-- C1: for every authenticated create request with valid input, the
returned task's created_by equals the caller identity, even when the request
body contains a created_by field with a different value: the body value is
silently ignored (it does not change the outcome of the request at all). -/
theorem create_created_by_eq_caller (u now : Nat) (s : Store) (b : Body)
    (tk : Task) (s' : Store)
    (h : createEndpoint (some u) s b now = (.ok tk, s')) :
    tk.created_by = u ∧
    ∀ v : Json, createEndpoint (some u) s (("created_by", v) :: b) now =
      createEndpoint (some u) s b now := by
  constructor
  · simp only [createEndpoint] at h
    cases hd : decodeCreate b with
    | error e => rw [hd] at h; simp at h
    | ok d =>
      rw [hd] at h
      simp [Prod.ext_iff] at h
      rw [← h.1]
      rfl
  · intro v
    unfold createEndpoint
    rw [decodeCreate_cons_ne "created_by" v b (by decide) (by decide) (by decide)
      (by decide) (by decide)]

/-- C5: for every store state (so in particular for every state reachable by
creations in any insertion order), the LIST operation, for an authenticated
caller, returns a permutation of all stored tasks that is sorted descending
by created_at (newest first), and leaves the store unchanged. -/
theorem list_sorted_desc (u : Nat) (s : Store) :
    listEndpoint (some u) s = (.ok s.listTasks, s) ∧
    s.listTasks.Perm s.tasks ∧
    List.Sorted taskGe s.listTasks :=
  ⟨rfl, List.perm_insertionSort taskGe s.tasks,
    List.sorted_insertionSort taskGe s.tasks⟩

/-- C6: every unauthenticated request to any of the five endpoint operations
(LIST, CREATE, GET, UPDATE, DELETE) results in Unauthorized and leaves the
record store unchanged; in particular CREATE persists nothing. -/
theorem unauthenticated_rejected (s : Store) (b : Body) (i now : Nat) :
    listEndpoint none s = (.error .unauthorized, s) ∧
    createEndpoint none s b now = (.error .unauthorized, s) ∧
    getEndpoint none s i = (.error .unauthorized, s) ∧
    updateEndpoint none s i b now = (.error .unauthorized, s) ∧
    deleteEndpoint none s i = (.error .unauthorized, s) :=
  ⟨rfl, rfl, rfl, rfl, rfl⟩

/-- C8: for every task record, the string representation equals
"{title} ({status})" with the record's title and status token substituted,
whatever the other fields are; in particular a task created through the
endpoint with title "My Task" and status IN_PROGRESS prints as
"My Task (IN_PROGRESS)". -/
theorem task_str_format (tk : Task) (u now : Nat) (s : Store) :
    tk.str = tk.title ++ " (" ++ tk.status.token ++ ")" ∧
    Except.map Task.str (createEndpoint (some u) s
        [("title", Json.str "My Task"), ("status", Json.str "IN_PROGRESS")]
        now).1 =
      .ok "My Task (IN_PROGRESS)" :=
  ⟨rfl, rfl⟩

/-- Witness for C1: caller 3 creating with a body that carries
created_by = 99 still yields a task whose created_by is 3, and the
smuggled key changes nothing. -/
theorem create_created_by_eq_caller_witness :
    c1ResTask.created_by = 3 ∧
    ∀ v : Json,
      createEndpoint (some 3) sampleStore (("created_by", v) :: c1Body) 20 =
        createEndpoint (some 3) sampleStore c1Body 20 :=
  create_created_by_eq_caller 3 20 sampleStore c1Body c1ResTask c1ResStore rfl

/-- C4: deleting a user u removes exactly the tasks whose created_by is u
(membership in the resulting store is characterised by surviving the
created_by filter, up to clearing of the assignment); every surviving task
that had assigned_to = u is kept with assigned_to set to absent; tasks
unrelated to u are unchanged; and no task of the result references u. -/
theorem delete_user_cascade (u : Nat) (s : Store) :
    (∀ tk', tk' ∈ (s.deleteUser u).tasks ↔
        ∃ tk, tk ∈ s.tasks ∧ ¬ tk.created_by = u ∧ tk' = clearAssigned u tk) ∧
    (∀ tk, tk ∈ s.tasks → ¬ tk.created_by = u → ¬ tk.assigned_to = some u →
        tk ∈ (s.deleteUser u).tasks) ∧
    (∀ tk, tk ∈ s.tasks → ¬ tk.created_by = u → tk.assigned_to = some u →
        { tk with assigned_to := none } ∈ (s.deleteUser u).tasks) ∧
    (∀ tk', tk' ∈ (s.deleteUser u).tasks →
        ¬ tk'.created_by = u ∧ ¬ tk'.assigned_to = some u) := by
  refine ⟨deleteUser_mem_iff u s, ?_, ?_, ?_⟩
  · intro tk htk hcb hna
    exact (deleteUser_mem_iff u s tk).mpr
      ⟨tk, htk, hcb, (clearAssigned_of_not u tk hna).symm⟩
  · intro tk htk hcb ha
    exact (deleteUser_mem_iff u s _).mpr
      ⟨tk, htk, hcb, (clearAssigned_of_some u tk ha).symm⟩
  · intro tk' h'
    obtain ⟨tk, _, hcb, heq⟩ := (deleteUser_mem_iff u s tk').mp h'
    subst heq
    exact ⟨fun hc => hcb ((clearAssigned_created_by u tk) ▸ hc),
           clearAssigned_not_assigned u tk⟩

/-- Witness for C4: deleting user 2 from the three-task store keeps the
unrelated task unchanged and keeps the assigned task with its assignment
cleared. -/
theorem delete_user_cascade_witness :
    c4TaskC ∈ (c4Store.deleteUser 2).tasks ∧
    { c4TaskB with assigned_to := none } ∈ (c4Store.deleteUser 2).tasks := by
  have h := delete_user_cascade 2 c4Store
  exact ⟨h.2.1 c4TaskC (by decide) (by decide) (by decide),
         h.2.2.1 c4TaskB (by decide) (by decide) (by decide)⟩

/-- C7: for every update of an existing task with a body that decodes,
updated_at is refreshed to the mutation time, created_at (and id,
created_by, assigned_to) keep their creation-time values, and every field
absent from the partial input keeps its previous value. -/
theorem update_frame (u i now : Nat) (s : Store) (tk : Task)
    (hget : s.getTask i = some tk) (b : Body) (p : PatchData)
    (hdec : decodePatch b = .ok p) :
    ∃ tk' s', updateEndpoint (some u) s i b now = (.ok tk', s') ∧
      tk'.updated_at = now ∧
      tk'.created_at = tk.created_at ∧
      tk'.id = tk.id ∧ tk'.created_by = tk.created_by ∧
      tk'.assigned_to = tk.assigned_to ∧
      (p.title = none → tk'.title = tk.title) ∧
      (p.description = none → tk'.description = tk.description) ∧
      (p.status = none → tk'.status = tk.status) ∧
      (p.priority = none → tk'.priority = tk.priority) ∧
      (p.due_date = none → tk'.due_date = tk.due_date) := by
  refine ⟨applyPatch tk p now, _,
    updateEndpoint_eq u i now s b tk hget p hdec,
    rfl, rfl, rfl, rfl, rfl, ?_, ?_, ?_, ?_, ?_⟩ <;>
  · intro h
    simp [applyPatch, h]

/-- Witness for C7: updating sampleTask with a status-only body at time 25
keeps every untouched field and refreshes updated_at. -/
theorem update_frame_witness :
    sampleStore.getTask 1 = some sampleTask ∧
    decodePatch c7Body = .ok c7Patch ∧
    (∃ tk' s', updateEndpoint (some 3) sampleStore 1 c7Body 25 = (.ok tk', s') ∧
      tk'.updated_at = 25 ∧
      tk'.created_at = sampleTask.created_at ∧
      tk'.id = sampleTask.id ∧ tk'.created_by = sampleTask.created_by ∧
      tk'.assigned_to = sampleTask.assigned_to ∧
      (c7Patch.title = none → tk'.title = sampleTask.title) ∧
      (c7Patch.description = none → tk'.description = sampleTask.description) ∧
      (c7Patch.status = none → tk'.status = sampleTask.status) ∧
      (c7Patch.priority = none → tk'.priority = sampleTask.priority) ∧
      (c7Patch.due_date = none → tk'.due_date = sampleTask.due_date)) :=
  ⟨rfl, rfl, update_frame 3 1 25 sampleStore sampleTask rfl c7Body c7Patch rfl⟩

/-- C2 counterexample: the task with id 1 is assigned to user 7; an
authenticated update whose body supplies assigned_to = 9 succeeds but the
stored assignment is still user 7, because TaskSerializer declares
assigned_to with read_only=True.  So assigned_to cannot be changed by a
value supplied in the request body, refuting the claim as stated. -/
theorem assigned_to_not_writable_cex :
    Except.map Task.assigned_to
        (updateEndpoint (some 3) sampleStore 1
          [("assigned_to", Json.num 9)] 30).1 = .ok (some 7) ∧
    ¬ (some 7 : Option Nat) = some 9 :=
  ⟨rfl, by decide⟩

/-- C2 amended: for every authenticated update of an existing task, the
fields title, description, status, priority and due_date (every field other
than id, created_by, created_at, updated_at and assigned_to) can be changed
by values supplied in the request body; assigned_to is read-only and keeps
its stored value on every successful update, as do id, created_by and
created_at. -/
theorem update_writable_fields (u i now : Nat) (s : Store) (tk : Task)
    (hget : s.getTask i = some tk) (ttl : String) (hne : ¬ ttl = "")
    (hlen : ttl.length ≤ 200) (dsc : String) (st : Status) (pr : Priority)
    (dd : Nat) :
    (∃ tk' s',
      updateEndpoint (some u) s i (writeBody ttl dsc st pr dd) now =
        (.ok tk', s') ∧
      tk'.title = ttl ∧ tk'.description = dsc ∧ tk'.status = st ∧
      tk'.priority = pr ∧ tk'.due_date = some dd) ∧
    (∀ b now2 tk' s', updateEndpoint (some u) s i b now2 = (.ok tk', s') →
      tk'.id = tk.id ∧ tk'.created_by = tk.created_by ∧
      tk'.created_at = tk.created_at ∧ tk'.assigned_to = tk.assigned_to) := by
  constructor
  · exact ⟨_, _,
      updateEndpoint_eq u i now s _ tk hget _
        (decodePatch_writeBody ttl dsc st pr dd hne hlen),
      rfl, rfl, rfl, rfl, rfl⟩
  · intro b now2 tk' s' h
    obtain ⟨tk2, p, hget2, _, htk'⟩ :=
      updateEndpoint_ok_inv u i now2 s b tk' s' h
    have heq : tk2 = tk := by
      have := hget2.symm.trans hget
      exact Option.some.inj this
    subst heq
    subst htk'
    exact ⟨rfl, rfl, rfl, rfl⟩

/-- Witness for C2: updating sampleTask with a body writing all five
writable fields changes exactly those, and any successful update keeps id,
created_by, created_at and assigned_to. -/
theorem update_writable_fields_witness :
    sampleStore.getTask 1 = some sampleTask ∧
    ¬ ("T2" : String) = "" ∧ ("T2" : String).length ≤ 200 ∧
    ((∃ tk' s',
        updateEndpoint (some 3) sampleStore 1
          (writeBody "T2" "d" .DONE .HIGH 42) 40 = (.ok tk', s') ∧
        tk'.title = "T2" ∧ tk'.description = "d" ∧ tk'.status = .DONE ∧
        tk'.priority = .HIGH ∧ tk'.due_date = some 42) ∧
     (∀ b now2 tk' s',
        updateEndpoint (some 3) sampleStore 1 b now2 = (.ok tk', s') →
        tk'.id = sampleTask.id ∧ tk'.created_by = sampleTask.created_by ∧
        tk'.created_at = sampleTask.created_at ∧
        tk'.assigned_to = sampleTask.assigned_to)) :=
  ⟨rfl, by decide, by decide,
   update_writable_fields 3 1 40 sampleStore sampleTask rfl "T2" (by decide)
     (by decide) "d" .DONE .HIGH 42⟩

/-- C3: for every input body whose status field is a string outside
{TODO, IN_PROGRESS, DONE}, or whose priority field is a string outside
{LOW, MEDIUM, HIGH}, decoding fails with ValidationError (for creation and
partial update alike); the CREATE endpoint rejects with ValidationError and
persists nothing, and the UPDATE endpoint leaves the store unchanged and,
whenever the target task exists, rejects with ValidationError. -/
theorem bad_enum_rejected (u now : Nat) (s : Store) (b : Body)
    (h : (∃ v, lookupKey b "status" = some (Json.str v) ∧
            parseStatus v = none) ∨
         (∃ v, lookupKey b "priority" = some (Json.str v) ∧
            parsePriority v = none)) :
    decodeCreate b = .error .validationError ∧
    decodePatch b = .error .validationError ∧
    createEndpoint (some u) s b now = (.error .validationError, s) ∧
    (∀ i, (updateEndpoint (some u) s i b now).2 = s ∧
      ((s.getTask i).isSome →
        (updateEndpoint (some u) s i b now).1 = .error .validationError)) := by
  have hdc : decodeCreate b = .error .validationError := by
    rcases decodeCreate_total b with he | ⟨d, hok⟩
    · exact he
    · exfalso
      obtain ⟨-, hstat, hprio⟩ := decodeCreate_ok_inv hok
      rcases h with ⟨v, hl, hp⟩ | ⟨v, hl, hp⟩
      · rcases hstat with hn | ⟨w, hw, hwok⟩
        · rw [hl] at hn; exact Option.noConfusion hn
        · have hv : w = Json.str v := Option.some.inj (hw.symm.trans hl)
          subst hv
          rw [validateStatus_str_bad hp] at hwok
          exact Except.noConfusion hwok
      · rcases hprio with hn | ⟨w, hw, hwok⟩
        · rw [hl] at hn; exact Option.noConfusion hn
        · have hv : w = Json.str v := Option.some.inj (hw.symm.trans hl)
          subst hv
          rw [validatePriority_str_bad hp] at hwok
          exact Except.noConfusion hwok
  have hdp : decodePatch b = .error .validationError := by
    rcases decodePatch_total b with he | ⟨p, hok⟩
    · exact he
    · exfalso
      obtain ⟨-, hstat, hprio⟩ := decodePatch_ok_inv hok
      rcases h with ⟨v, hl, hp⟩ | ⟨v, hl, hp⟩
      · rcases hstat with ⟨hn, -⟩ | ⟨w, w2, hw, hwok, -⟩
        · rw [hl] at hn; exact Option.noConfusion hn
        · have hv : w = Json.str v := Option.some.inj (hw.symm.trans hl)
          subst hv
          rw [validateStatus_str_bad hp] at hwok
          exact Except.noConfusion hwok
      · rcases hprio with ⟨hn, -⟩ | ⟨w, w2, hw, hwok, -⟩
        · rw [hl] at hn; exact Option.noConfusion hn
        · have hv : w = Json.str v := Option.some.inj (hw.symm.trans hl)
          subst hv
          rw [validatePriority_str_bad hp] at hwok
          exact Except.noConfusion hwok
  refine ⟨hdc, hdp, ?_, ?_⟩
  · simp only [createEndpoint, hdc]
  · intro i
    cases hget : s.getTask i with
    | none =>
      refine ⟨?_, ?_⟩
      · simp only [updateEndpoint, hget]
      · intro hs; exact absurd hs (by simp)
    | some tk =>
      refine ⟨?_, fun _ => ?_⟩ <;> simp only [updateEndpoint, hget, hdp]

/-- Witness for C3: the concrete body with status "BOGUS" is rejected by
both decoders and both mutating endpoints. -/
theorem bad_enum_rejected_witness :
    ((∃ v, lookupKey c3Body "status" = some (Json.str v) ∧
        parseStatus v = none) ∨
     (∃ v, lookupKey c3Body "priority" = some (Json.str v) ∧
        parsePriority v = none)) ∧
    (decodeCreate c3Body = .error .validationError ∧
     decodePatch c3Body = .error .validationError ∧
     createEndpoint (some 3) sampleStore c3Body 50 =
       (.error .validationError, sampleStore) ∧
     (∀ i, (updateEndpoint (some 3) sampleStore i c3Body 50).2 = sampleStore ∧
       ((sampleStore.getTask i).isSome →
         (updateEndpoint (some 3) sampleStore i c3Body 50).1 =
           .error .validationError))) :=
  ⟨Or.inl ⟨"BOGUS", rfl, rfl⟩,
   bad_enum_rejected 3 50 sampleStore c3Body (Or.inl ⟨"BOGUS", rfl, rfl⟩)⟩

/-- C9: request-body keys that are not among the declared serializer fields
are silently ignored: decoding a body extended with such a key gives
exactly the same result as without it (so no ValidationError is raised for
unknown field names and the key never influences the decoded record), for
creation and partial update alike. -/
theorem unknown_keys_ignored (b : Body) (k : String) (v : Json)
    (hk : ¬ k ∈ serializerFields) :
    decodeCreate ((k, v) :: b) = decodeCreate b ∧
    decodePatch ((k, v) :: b) = decodePatch b := by
  have h : ¬ k = "id" ∧ ¬ k = "title" ∧ ¬ k = "description" ∧
      ¬ k = "status" ∧ ¬ k = "priority" ∧ ¬ k = "assigned_to" ∧
      ¬ k = "created_by" ∧ ¬ k = "created_at" ∧ ¬ k = "updated_at" ∧
      ¬ k = "due_date" := by
    simpa [serializerFields, not_or] using hk
  obtain ⟨-, ht, hd, hs, hp, -, -, -, -, hdd⟩ := h
  exact ⟨decodeCreate_cons_ne k v b ht hd hs hp hdd,
         decodePatch_cons_ne k v b ht hd hs hp hdd⟩

/-- Witness for C9: an unknown key "color" changes neither decoder's
outcome on a concrete body. -/
theorem unknown_keys_ignored_witness :
    ¬ ("color" : String) ∈ serializerFields ∧
    (decodeCreate (("color", Json.str "red") :: c1Body) =
       decodeCreate c1Body ∧
     decodePatch (("color", Json.str "red") :: c1Body) =
       decodePatch c1Body) :=
  ⟨by decide, unknown_keys_ignored c1Body "color" (Json.str "red") (by decide)⟩

/-- C10: an input whose title is the empty string (or absent, on a create)
fails validation with ValidationError; every store whose tasks all have
non-empty titles keeps that property across any CREATE or UPDATE call, so a
task with an empty title is never persisted through the API; and an empty
description is accepted. -/
theorem empty_title_rejected (u i now : Nat) (s : Store) (b : Body)
    (hinv : ∀ tk, tk ∈ s.tasks → ¬ tk.title = "") :
    ((lookupKey b "title" = some (Json.str "") ∨ lookupKey b "title" = none) →
      decodeCreate b = .error .validationError) ∧
    (lookupKey b "title" = some (Json.str "") →
      decodePatch b = .error .validationError) ∧
    (∀ tk, tk ∈ ((createEndpoint (some u) s b now).2).tasks →
      ¬ tk.title = "") ∧
    (∀ tk, tk ∈ ((updateEndpoint (some u) s i b now).2).tasks →
      ¬ tk.title = "") ∧
    decodeCreate [("title", Json.str "T"), ("description", Json.str "")] =
      .ok { title := "T", description := "", status := .TODO,
            priority := .MEDIUM, due_date := none } := by
  refine ⟨?_, ?_, ?_, ?_, rfl⟩
  · intro hl
    rcases decodeCreate_total b with he | ⟨d, hok⟩
    · exact he
    · exfalso
      obtain ⟨⟨v, hv, hvok⟩, -, -⟩ := decodeCreate_ok_inv hok
      rcases hl with hl | hl
      · have hve : v = Json.str "" := Option.some.inj (hv.symm.trans hl)
        subst hve
        exact Except.noConfusion hvok
      · rw [hl] at hv; exact Option.noConfusion hv
  · intro hl
    rcases decodePatch_total b with he | ⟨p, hok⟩
    · exact he
    · exfalso
      obtain ⟨hts, -, -⟩ := decodePatch_ok_inv hok
      rcases hts with ⟨hn, -⟩ | ⟨v, w, hv, hvok, -⟩
      · rw [hl] at hn; exact Option.noConfusion hn
      · have hve : v = Json.str "" := Option.some.inj (hv.symm.trans hl)
        subst hve
        exact Except.noConfusion hvok
  · intro tk htk
    cases hd : decodeCreate b with
    | error e =>
      simp only [createEndpoint, hd] at htk
      exact hinv tk htk
    | ok d =>
      simp only [createEndpoint, hd, Store.createTask] at htk
      rcases List.mem_append.mp htk with hmem | hmem
      · exact hinv tk hmem
      · obtain ⟨⟨v, hv, hvok⟩, -, -⟩ := decodeCreate_ok_inv hd
        have hne := validateTitle_ok hvok
        rw [List.mem_singleton] at hmem
        subst hmem
        exact hne
  · intro tk htk
    cases hget : s.getTask i with
    | none =>
      simp only [updateEndpoint, hget] at htk
      exact hinv tk htk
    | some tk0 =>
      cases hdp : decodePatch b with
      | error e =>
        simp only [updateEndpoint, hget, hdp] at htk
        exact hinv tk htk
      | ok p =>
        rw [updateEndpoint_eq u i now s b tk0 hget p hdp] at htk
        rcases List.mem_map.mp htk with ⟨x, hx, hxe⟩
        by_cases hid : x.id = i
        · rw [if_pos hid] at hxe
          subst hxe
          obtain ⟨hts, -, -⟩ := decodePatch_ok_inv hdp
          rcases hts with ⟨-, hpt⟩ | ⟨v, w, -, hvok, hpt⟩
          · simpa [applyPatch, hpt] using hinv tk0 (getTask_mem hget)
          · simpa [applyPatch, hpt] using validateTitle_ok hvok
        · rw [if_neg hid] at hxe
          subst hxe
          exact hinv x hx

/-- Witness for C10: the empty-title body is rejected and the sample store
keeps its non-empty titles through both mutating endpoints. -/
theorem empty_title_rejected_witness :
    (∀ tk, tk ∈ sampleStore.tasks → ¬ tk.title = "") ∧
    (((lookupKey c10Body "title" = some (Json.str "") ∨
        lookupKey c10Body "title" = none) →
      decodeCreate c10Body = .error .validationError) ∧
     (lookupKey c10Body "title" = some (Json.str "") →
      decodePatch c10Body = .error .validationError) ∧
     (∀ tk, tk ∈ ((createEndpoint (some 3) sampleStore c10Body 60).2).tasks →
        ¬ tk.title = "") ∧
     (∀ tk, tk ∈ ((updateEndpoint (some 3) sampleStore 1 c10Body 60).2).tasks →
        ¬ tk.title = "") ∧
     decodeCreate [("title", Json.str "T"), ("description", Json.str "")] =
       .ok { title := "T", description := "", status := .TODO,
             priority := .MEDIUM, due_date := none }) :=
  ⟨by decide, empty_title_rejected 3 1 60 sampleStore c10Body (by decide)⟩

end Taskflow
